import Mathlib

/-!
Verification of the round-lifecycle and prefetch-queue controller of the
LEXILENS/INSIGHT word-guessing game.

The development shallowly embeds the controller of the feature-complete
variant (the `App` component holding a `GameState` with a bounded prefetch
queue, history and score, together with its puzzle generator service).
JavaScript strings of game words are modelled as `List Char`; JS `Set`s of
guessed letters as insertion-ordered duplicate-free `List Char`; each slot
of the guess display (a one-character string or the empty string) as
`Option Char`.  Asynchronous handlers are split at their `await` points
into a synchronous start function and success/failure continuations, and
the whole component is given a small-step transition relation over which
reachability invariants are proved.  User-visible side effects (sound
notifications, the alert dialog) are returned as explicit effect lists.
-/

set_option maxHeartbeats 1000000

namespace Lexilens

/-- Game lifecycle status (`GameStatus` enum). -/
inductive GameStatus where
  | IDLE
  | LOADING
  | PLAYING
  | WON
  | LOST
deriving DecidableEq

/-- The `puzzle_data_for_user` nested record of `PuzzleData`. -/
structure PuzzleUserData where
  redacted_caption : String
  letter_pool : List Char
deriving DecidableEq

/-- The `PuzzleData` record produced by the generator. -/
structure PuzzleData where
  internal_thought_process : String
  image_url : String
  original_caption_hidden : String
  target_word_hidden : List Char
  word_length : Nat
  art_style : String
  theme : String
  category : String
  puzzle_data_for_user : PuzzleUserData
deriving DecidableEq

/-- Outcome tag of an archived round (`'WON' | 'LOST'`). -/
inductive Outcome where
  | WON
  | LOST
deriving DecidableEq

/-- `HistoryItem`: an archived completed round. -/
structure HistoryItem where
  puzzle : PuzzleData
  outcome : Outcome
  timestamp : Nat
deriving DecidableEq

/-- The session score counters. -/
structure Score where
  won : Nat
  lost : Nat
deriving DecidableEq

/-- The `GameState` record held in the `gameState` React state. -/
structure GameState where
  status : GameStatus
  puzzle : Option PuzzleData
  nextPuzzles : List PuzzleData
  userGuess : List (Option Char)
  attempts : Nat
  maxAttempts : Nat
  guessedLetters : List Char
  score : Score
  history : List HistoryItem
deriving DecidableEq

/-- User-visible side effects emitted by the handlers: the sound
notifications of the guess evaluator and the alert dialog of the
foreground generation-failure path. -/
inductive Effect where
  | soundCorrect
  | soundIncorrect
  | soundWin
  | soundLose
  | alert (msg : String)
deriving DecidableEq

/-- `MAX_ATTEMPTS = 4` in the feature-complete variant. -/
def MAX_ATTEMPTS : Nat := 4

/-- `MAX_PREFETCH = 2`: capacity of the prefetch queue. -/
def MAX_PREFETCH : Nat := 2

/-- `MAX_HISTORY = 12`: capacity of the archived-round history. -/
def MAX_HISTORY : Nat := 12

/-- Cooldown after a failed background prefetch: `Date.now() + 5000`. -/
def PREFETCH_COOLDOWN_MS : Nat := 5000

/-- `userGuess.join('')`: concatenating the guess slots drops the blanks
and keeps the revealed letters in order. -/
def joinGuess (g : List (Option Char)) : List Char :=
  g.filterMap id

/-- The body of `handleLetterClick` past its early-return guards
(source lines 218-250): records the guess, recomputes the display,
decides the outcome and emits the sound notifications. -/
def clickUpdate (letter : Char) (gs : GameState) (puzzle : PuzzleData) :
    GameState × List Effect :=
  let targetWord := puzzle.target_word_hidden.map Char.toUpper
  let isCorrect := targetWord.contains letter
  let nextGuessed := gs.guessedLetters ++ [letter]
  let nextAttempts := if isCorrect then gs.attempts else gs.attempts + 1
  let newUserGuess :=
    targetWord.map fun c => if nextGuessed.contains c then some c else none
  let isWon := joinGuess newUserGuess == targetWord
  let isLost := !isWon && decide (gs.maxAttempts ≤ nextAttempts)
  ({ gs with
      guessedLetters := nextGuessed
      userGuess := newUserGuess
      attempts := nextAttempts
      status :=
        if isWon then GameStatus.WON
        else if isLost then GameStatus.LOST
        else GameStatus.PLAYING
      score :=
        { won := if isWon then gs.score.won + 1 else gs.score.won
          lost := if isLost then gs.score.lost + 1 else gs.score.lost } },
   (if isCorrect then [Effect.soundCorrect] else [Effect.soundIncorrect]) ++
     (if isWon then [Effect.soundWin] else []) ++
     (if isLost then [Effect.soundLose] else []))

/-- `handleLetterClick` (source lines 211-251): ignores the click unless a
puzzle is active, the round is being played, the letter is new and the
(uppercased) target word is non-empty; otherwise delegates to
`clickUpdate`. -/
def handleLetterClick (letter : Char) (gs : GameState) :
    GameState × List Effect :=
  match gs.puzzle with
  | none => (gs, [])
  | some puzzle =>
    if gs.status ≠ GameStatus.PLAYING then (gs, [])
    else if gs.guessedLetters.contains letter then (gs, [])
    else if (puzzle.target_word_hidden.map Char.toUpper).isEmpty then (gs, [])
    else clickUpdate letter gs puzzle

/-- The whole component state: the `gameState` record together with the
auxiliary React state and refs of the controller (`isRetrying`,
`isPrefetching`, `isFetchingNext`, `hasExpandedPool`, `prefetchCooldown`),
and `loadPending`, which models the foreground `generateGameRound` promise
being in flight after the synchronous part of the slow start path. -/
structure AppState where
  gameState : GameState
  isRetrying : Bool
  isPrefetching : Bool
  isFetchingNext : Bool
  hasExpandedPool : Bool
  prefetchCooldown : Nat
  loadPending : Bool
deriving DecidableEq

/-- `archiveCurrentPuzzle` (source lines 145-155): when a finished round
exists, prepend it to the history tagged with its outcome and truncate to
`MAX_HISTORY` entries; otherwise return the history unchanged. -/
def archiveCurrentPuzzle (prev : GameState) (now : Nat) : List HistoryItem :=
  match prev.puzzle with
  | none => prev.history
  | some p =>
    if prev.status ≠ GameStatus.WON ∧ prev.status ≠ GameStatus.LOST then
      prev.history
    else
      ({ puzzle := p
         outcome := if prev.status = GameStatus.WON then Outcome.WON else Outcome.LOST
         timestamp := now } :: prev.history).take MAX_HISTORY

/-- The synchronous part of `startNewGame` (source lines 157-185).  With a
non-empty prefetch queue it dequeues the head puzzle and starts playing it
immediately; with an empty queue it enters `LOADING`, resets the round
fields, archives any finished round and leaves the generator call pending
(`loadPending`). -/
def startNewGame (now : Nat) (s : AppState) : AppState :=
  match s.gameState.nextPuzzles with
  | next :: remaining =>
    { s with
        gameState :=
          { s.gameState with
              status := GameStatus.PLAYING
              puzzle := some next
              nextPuzzles := remaining
              userGuess := List.replicate next.word_length none
              attempts := 0
              guessedLetters := []
              history := archiveCurrentPuzzle s.gameState now } }
  | [] =>
    { s with
        gameState :=
          { s.gameState with
              status := GameStatus.LOADING
              userGuess := []
              attempts := 0
              guessedLetters := []
              history := archiveCurrentPuzzle s.gameState now }
        loadPending := true }

/-- Continuation of `startNewGame` when the awaited foreground
`generateGameRound()` resolves (source lines 188-196): install the puzzle
and start playing. -/
def startNewGameSuccess (p : PuzzleData) (s : AppState) : AppState :=
  { s with
      gameState :=
        { s.gameState with
            status := GameStatus.PLAYING
            puzzle := some p
            userGuess := List.replicate p.word_length none
            attempts := 0
            guessedLetters := [] }
      loadPending := false }

/-- Continuation of `startNewGame` when the awaited foreground
`generateGameRound()` rejects (source lines 197-201): return to `IDLE`
and surface an alert dialog. -/
def startNewGameFailure (s : AppState) : AppState × List Effect :=
  ({ s with
       gameState := { s.gameState with status := GameStatus.IDLE }
       loadPending := false },
   [Effect.alert "AI signal interrupted. Please try again."])

/-- The synchronous part of `prefetchNextRound` (source lines 95-101):
bail out if a fetch is already in flight, the queue is full, or the
cooldown after a failure has not elapsed; otherwise raise the in-flight
guard and the prefetch indicator and clear the retry indicator. -/
def prefetchNextRound (now : Nat) (s : AppState) : AppState :=
  if s.isFetchingNext || decide (MAX_PREFETCH ≤ s.gameState.nextPuzzles.length) ||
      decide (now < s.prefetchCooldown) then s
  else { s with isFetchingNext := true, isPrefetching := true, isRetrying := false }

/-- Continuation of `prefetchNextRound` when the awaited background
`generateGameRound()` resolves (source lines 103-108 and the `finally`
block): append the puzzle to the queue only if its target word has at
least 3 letters, then drop the in-flight guard. -/
def prefetchNextRoundSuccess (p : PuzzleData) (s : AppState) : AppState :=
  let s' :=
    if 3 ≤ p.target_word_hidden.length then
      { s with
          gameState :=
            { s.gameState with nextPuzzles := s.gameState.nextPuzzles ++ [p] } }
    else s
  { s' with isFetchingNext := false, isPrefetching := false }

/-- Continuation of `prefetchNextRound` when the awaited background
`generateGameRound()` rejects (source lines 109-116): start a 5-second
cooldown, raise the retry indicator and drop the in-flight guard.  The
failure is absorbed here and never rethrown. -/
def prefetchNextRoundFailure (now : Nat) (s : AppState) : AppState :=
  { s with
      prefetchCooldown := now + PREFETCH_COOLDOWN_MS
      isRetrying := true
      isFetchingNext := false
      isPrefetching := false }

/-- The content-pool expansion monitor effect (source lines 120-129): the
first time the queue holds exactly 2 ready puzzles, mark the one-time
expansion as done (the `expandPool` call itself is fire-and-forget). -/
def expandPoolEffect (s : AppState) : AppState :=
  if s.gameState.nextPuzzles.length = 2 ∧ s.hasExpandedPool = false then
    { s with hasExpandedPool := true }
  else s

/-- The `rawWord` cleanup of the generator (service source line 201):
strip non-alphabetic characters and uppercase. -/
def rawWordOf (raw : String) : List Char :=
  (raw.toList.filter Char.isAlpha).map Char.toUpper

/-- Target-word extraction of the generator (service source lines
201-202): fall back to `"PUZZLE"` when the cleaned word is shorter than 3
letters or is the banned word `"MYSTERY"`. -/
def extractTargetWord (raw : String) : List Char :=
  if 3 ≤ (rawWordOf raw).length ∧ rawWordOf raw ≠ "MYSTERY".toList then
    rawWordOf raw
  else "PUZZLE".toList

/-- Case-insensitive global replacement of the target word by `"___"`,
modelling `caption.replace(new RegExp(targetWord, 'gi'), "___")` on an
alphabetic target.  Fuel-indexed scan over the caption. -/
def replaceCIAux : Nat → List Char → List Char → List Char
  | 0, _, s => s
  | _ + 1, _, [] => []
  | fuel + 1, target, c :: rest =>
    if target ≠ [] ∧
        ((c :: rest).take target.length).map Char.toUpper =
          target.map Char.toUpper then
      "___".toList ++ replaceCIAux fuel target ((c :: rest).drop target.length)
    else c :: replaceCIAux fuel target rest

/-- Redact every case-insensitive occurrence of the target word in the
caption. -/
def replaceAllCI (target s : List Char) : List Char :=
  replaceCIAux s.length target s

/-- The deterministic tail of the generator `generateGameRound` (service
source lines 198-243), parameterised over everything the model responses
and the random draws supplied: the raw target word and caption returned
by the concept call, the image URL, the style/theme/domain draws and the
padded shuffled letter pool. -/
def generateGameRoundPure (thought imageUrl rawTargetWord rawCaption : String)
    (style theme domain : String) (letterPool : List Char) : PuzzleData :=
  let targetWord := extractTargetWord rawTargetWord
  let caption := rawCaption.trim
  { internal_thought_process := thought
    image_url := imageUrl
    original_caption_hidden := caption
    target_word_hidden := targetWord
    word_length := targetWord.length
    art_style := style
    theme := theme
    category := domain
    puzzle_data_for_user :=
      { redacted_caption := String.mk (replaceAllCI targetWord caption.toList)
        letter_pool := letterPool } }

/-- The initial component state (source lines 41-65). -/
def initialState : AppState :=
  { gameState :=
      { status := GameStatus.IDLE
        puzzle := none
        nextPuzzles := []
        userGuess := []
        attempts := 0
        maxAttempts := MAX_ATTEMPTS
        guessedLetters := []
        score := { won := 0, lost := 0 }
        history := [] }
    isRetrying := false
    isPrefetching := false
    isFetchingNext := false
    hasExpandedPool := false
    prefetchCooldown := 0
    loadPending := false }

/-- Lift of the guess evaluator to the component state (the emitted sound
effects do not feed back into the state). -/
def stepClick (letter : Char) (s : AppState) : AppState :=
  { s with gameState := (handleLetterClick letter s.gameState).1 }

/-- One cooperative scheduling step of the component: a user intent
(letter click or new-game request), the resolution of a pending
foreground load, the start or the resolution of a background prefetch, or
the pool-expansion monitor.  Generator results are exactly the puzzles
`generateGameRoundPure` can build from arbitrary upstream responses. -/
inductive Step : AppState → AppState → Prop where
  | click (letter : Char) (s : AppState) : Step s (stepClick letter s)
  | start (now : Nat) (s : AppState) : Step s (startNewGame now s)
  | loadSuccess (thought imageUrl rawTargetWord rawCaption style theme domain : String)
      (letterPool : List Char) (s : AppState) :
      s.loadPending = true →
      Step s (startNewGameSuccess
        (generateGameRoundPure thought imageUrl rawTargetWord rawCaption
          style theme domain letterPool) s)
  | loadFailure (s : AppState) :
      s.loadPending = true → Step s (startNewGameFailure s).1
  | fetchStart (now : Nat) (s : AppState) :
      s.gameState.status ≠ GameStatus.IDLE → Step s (prefetchNextRound now s)
  | fetchSuccess (thought imageUrl rawTargetWord rawCaption style theme domain : String)
      (letterPool : List Char) (s : AppState) :
      s.isFetchingNext = true →
      Step s (prefetchNextRoundSuccess
        (generateGameRoundPure thought imageUrl rawTargetWord rawCaption
          style theme domain letterPool) s)
  | fetchFailure (now : Nat) (s : AppState) :
      s.isFetchingNext = true → Step s (prefetchNextRoundFailure now s)
  | poolCheck (s : AppState) : Step s (expandPoolEffect s)

/-- States reachable from the initial component state. -/
inductive Reachable : AppState → Prop where
  | init : Reachable initialState
  | step {s s' : AppState} : Reachable s → Step s s' → Reachable s'

/-- Well-formedness every puzzle built by the generator satisfies: the
advertised `word_length` is the length of the target word, and the target
word is already uppercase. -/
def WFPuzzle (p : PuzzleData) : Prop :=
  p.word_length = p.target_word_hidden.length ∧
  p.target_word_hidden.map Char.toUpper = p.target_word_hidden

/-! ### Character and word facts -/

theorem char_toNat_ofNat_valid (n : Nat) (h : n.isValidChar) :
    (Char.ofNat n).toNat = n := by
  unfold Char.ofNat
  rw [dif_pos h]
  unfold Char.ofNatAux Char.toNat
  simp [UInt32.toNat]

theorem char_toUpper_idem (c : Char) : c.toUpper.toUpper = c.toUpper := by
  unfold Char.toUpper
  by_cases h : c.toNat ≥ 97 ∧ c.toNat ≤ 122
  · rw [if_pos h]
    have hv : (c.toNat - 32).isValidChar := by
      left
      omega
    rw [char_toNat_ofNat_valid _ hv]
    rw [if_neg (by omega)]
  · simp only [if_neg h]

theorem map_toUpper_idem (l : List Char) :
    (l.map Char.toUpper).map Char.toUpper = l.map Char.toUpper := by
  rw [List.map_map]
  exact List.map_congr_left fun a _ => char_toUpper_idem a

theorem extractTargetWord_upper (raw : String) :
    (extractTargetWord raw).map Char.toUpper = extractTargetWord raw := by
  unfold extractTargetWord
  split
  · exact map_toUpper_idem _
  · decide

theorem generateGameRoundPure_wf
    (thought imageUrl rawTargetWord rawCaption style theme domain : String)
    (letterPool : List Char) :
    WFPuzzle (generateGameRoundPure thought imageUrl rawTargetWord rawCaption
      style theme domain letterPool) :=
  ⟨rfl, extractTargetWord_upper rawTargetWord⟩

/-! ### Guess-evaluator characterisation -/

theorem handleLetterClick_noop_nopuzzle (l : Char) (gs : GameState)
    (hp : gs.puzzle = none) : handleLetterClick l gs = (gs, []) := by
  unfold handleLetterClick
  rw [hp]

theorem handleLetterClick_noop_notPlaying (l : Char) (gs : GameState)
    (hs : gs.status ≠ GameStatus.PLAYING) : handleLetterClick l gs = (gs, []) := by
  unfold handleLetterClick
  cases hp : gs.puzzle with
  | none => rfl
  | some p =>
    dsimp only
    rw [if_pos hs]

theorem handleLetterClick_noop_guessed (l : Char) (gs : GameState)
    (hg : gs.guessedLetters.contains l = true) :
    handleLetterClick l gs = (gs, []) := by
  unfold handleLetterClick
  cases hp : gs.puzzle with
  | none => rfl
  | some p =>
    dsimp only
    by_cases hs : gs.status ≠ GameStatus.PLAYING
    · rw [if_pos hs]
    · rw [if_neg hs, if_pos hg]

theorem handleLetterClick_noop_emptyWord (l : Char) (gs : GameState) (p : PuzzleData)
    (hp : gs.puzzle = some p)
    (ht : (p.target_word_hidden.map Char.toUpper).isEmpty = true) :
    handleLetterClick l gs = (gs, []) := by
  unfold handleLetterClick
  rw [hp]
  dsimp only
  by_cases hs : gs.status ≠ GameStatus.PLAYING
  · rw [if_pos hs]
  · rw [if_neg hs]
    by_cases hg : gs.guessedLetters.contains l = true
    · rw [if_pos hg]
    · rw [if_neg hg, if_pos ht]

theorem handleLetterClick_act (l : Char) (gs : GameState) (p : PuzzleData)
    (hp : gs.puzzle = some p)
    (hs : gs.status = GameStatus.PLAYING)
    (hg : gs.guessedLetters.contains l = false)
    (ht : (p.target_word_hidden.map Char.toUpper).isEmpty = false) :
    handleLetterClick l gs = clickUpdate l gs p := by
  unfold handleLetterClick
  rw [hp]
  dsimp only
  rw [if_neg (by simp [hs]), if_neg (by rw [hg]; simp), if_neg (by rw [ht]; simp)]

theorem clickUpdate_fst_puzzle (l : Char) (gs : GameState) (p : PuzzleData) :
    (clickUpdate l gs p).1.puzzle = gs.puzzle := rfl

theorem clickUpdate_fst_nextPuzzles (l : Char) (gs : GameState) (p : PuzzleData) :
    (clickUpdate l gs p).1.nextPuzzles = gs.nextPuzzles := rfl

theorem clickUpdate_fst_maxAttempts (l : Char) (gs : GameState) (p : PuzzleData) :
    (clickUpdate l gs p).1.maxAttempts = gs.maxAttempts := rfl

theorem clickUpdate_fst_history (l : Char) (gs : GameState) (p : PuzzleData) :
    (clickUpdate l gs p).1.history = gs.history := rfl

theorem clickUpdate_fst_guessedLetters (l : Char) (gs : GameState) (p : PuzzleData) :
    (clickUpdate l gs p).1.guessedLetters = gs.guessedLetters ++ [l] := rfl

theorem clickUpdate_fst_attempts (l : Char) (gs : GameState) (p : PuzzleData) :
    (clickUpdate l gs p).1.attempts =
      if (p.target_word_hidden.map Char.toUpper).contains l then gs.attempts
      else gs.attempts + 1 := rfl

theorem clickUpdate_fst_userGuess (l : Char) (gs : GameState) (p : PuzzleData) :
    (clickUpdate l gs p).1.userGuess =
      (p.target_word_hidden.map Char.toUpper).map fun c =>
        if (gs.guessedLetters ++ [l]).contains c then some c else none := rfl

theorem clickUpdate_fst_status (l : Char) (gs : GameState) (p : PuzzleData) :
    (clickUpdate l gs p).1.status =
      (if joinGuess ((p.target_word_hidden.map Char.toUpper).map fun c =>
            if (gs.guessedLetters ++ [l]).contains c then some c else none) ==
          p.target_word_hidden.map Char.toUpper then GameStatus.WON
       else if (!(joinGuess ((p.target_word_hidden.map Char.toUpper).map fun c =>
            if (gs.guessedLetters ++ [l]).contains c then some c else none) ==
          p.target_word_hidden.map Char.toUpper) &&
          decide (gs.maxAttempts ≤
            if (p.target_word_hidden.map Char.toUpper).contains l then gs.attempts
            else gs.attempts + 1)) then GameStatus.LOST
       else GameStatus.PLAYING) := rfl

theorem clickUpdate_status_iff (l : Char) (gs : GameState) (p : PuzzleData) :
    ((clickUpdate l gs p).1.status = GameStatus.WON ↔
      joinGuess (clickUpdate l gs p).1.userGuess =
        p.target_word_hidden.map Char.toUpper) ∧
    ((clickUpdate l gs p).1.status = GameStatus.LOST ↔
      (joinGuess (clickUpdate l gs p).1.userGuess ≠
          p.target_word_hidden.map Char.toUpper ∧
        gs.maxAttempts ≤ (clickUpdate l gs p).1.attempts)) ∧
    ((clickUpdate l gs p).1.status = GameStatus.PLAYING ↔
      (joinGuess (clickUpdate l gs p).1.userGuess ≠
          p.target_word_hidden.map Char.toUpper ∧
        (clickUpdate l gs p).1.attempts < gs.maxAttempts)) := by
  rw [clickUpdate_fst_status, clickUpdate_fst_userGuess, clickUpdate_fst_attempts]
  generalize (if (p.target_word_hidden.map Char.toUpper).contains l then gs.attempts
    else gs.attempts + 1) = A
  generalize joinGuess ((p.target_word_hidden.map Char.toUpper).map fun c =>
    if (gs.guessedLetters ++ [l]).contains c then some c else none) = U
  generalize p.target_word_hidden.map Char.toUpper = T
  by_cases hW : U = T
  · simp [hW]
  · by_cases hA : gs.maxAttempts ≤ A
    · simp [hW, hA]
    · simp [hW, hA, Nat.lt_of_not_le hA]

/-! ### The inductive invariant of the transition system -/

/-- The inductive state invariant: the queue respects its capacity (with
headroom for an in-flight fetch), `maxAttempts` is the constant 4,
attempts stay within bounds (strictly, while play is ongoing), every
puzzle in the system is generator-well-formed, the guess display is sized
to the active puzzle, and terminal statuses carry their defining
evidence. -/
structure Inv (s : AppState) : Prop where
  queue_le : s.gameState.nextPuzzles.length ≤ MAX_PREFETCH
  inflight : s.isFetchingNext = true → s.gameState.nextPuzzles.length + 1 ≤ MAX_PREFETCH
  maxAtt : s.gameState.maxAttempts = MAX_ATTEMPTS
  att_le : s.gameState.attempts ≤ s.gameState.maxAttempts
  att_lt : s.gameState.status = GameStatus.PLAYING →
    s.gameState.attempts < s.gameState.maxAttempts
  queue_wf : ∀ p ∈ s.gameState.nextPuzzles, WFPuzzle p
  cur_wf : ∀ p, s.gameState.puzzle = some p → WFPuzzle p
  guess_len : s.gameState.status = GameStatus.PLAYING ∨
      s.gameState.status = GameStatus.WON ∨ s.gameState.status = GameStatus.LOST →
    ∃ p, s.gameState.puzzle = some p ∧
      s.gameState.userGuess.length = p.word_length
  won_inv : s.gameState.status = GameStatus.WON →
    ∃ p, s.gameState.puzzle = some p ∧
      joinGuess s.gameState.userGuess = p.target_word_hidden
  lost_inv : s.gameState.status = GameStatus.LOST →
    ∃ p, s.gameState.puzzle = some p ∧
      joinGuess s.gameState.userGuess ≠ p.target_word_hidden ∧
      s.gameState.maxAttempts ≤ s.gameState.attempts

theorem inv_stepClick (l : Char) (s : AppState) (h : Inv s) :
    Inv (stepClick l s) := by
  rcases hp : s.gameState.puzzle with _ | p
  · have he : stepClick l s = s := by
      unfold stepClick
      rw [handleLetterClick_noop_nopuzzle l s.gameState hp]
    rw [he]
    exact h
  by_cases hs : s.gameState.status = GameStatus.PLAYING
  case neg =>
    have he : stepClick l s = s := by
      unfold stepClick
      rw [handleLetterClick_noop_notPlaying l s.gameState hs]
    rw [he]
    exact h
  cases hg : s.gameState.guessedLetters.contains l with
  | true =>
    have he : stepClick l s = s := by
      unfold stepClick
      rw [handleLetterClick_noop_guessed l s.gameState hg]
    rw [he]
    exact h
  | false =>
  cases ht : (p.target_word_hidden.map Char.toUpper).isEmpty with
  | true =>
    have he : stepClick l s = s := by
      unfold stepClick
      rw [handleLetterClick_noop_emptyWord l s.gameState p hp ht]
    rw [he]
    exact h
  | false =>
  have hact : stepClick l s = { s with gameState := (clickUpdate l s.gameState p).1 } := by
    unfold stepClick
    rw [handleLetterClick_act l s.gameState p hp hs hg ht]
  obtain ⟨hwon, hlost, hplay⟩ := clickUpdate_status_iff l s.gameState p
  have hwf := h.cur_wf p hp
  rw [hact]
  refine
    { queue_le := ?_
      inflight := ?_
      maxAtt := ?_
      att_le := ?_
      att_lt := ?_
      queue_wf := ?_
      cur_wf := ?_
      guess_len := ?_
      won_inv := ?_
      lost_inv := ?_ }
  · simpa only [clickUpdate_fst_nextPuzzles] using h.queue_le
  · simpa only [clickUpdate_fst_nextPuzzles] using h.inflight
  · simpa only [clickUpdate_fst_maxAttempts] using h.maxAtt
  · show (clickUpdate l s.gameState p).1.attempts ≤
      (clickUpdate l s.gameState p).1.maxAttempts
    rw [clickUpdate_fst_attempts, clickUpdate_fst_maxAttempts]
    have hlt := h.att_lt hs
    split <;> omega
  · intro hst
    show (clickUpdate l s.gameState p).1.attempts <
      (clickUpdate l s.gameState p).1.maxAttempts
    rw [clickUpdate_fst_maxAttempts]
    exact (hplay.mp hst).2
  · simpa only [clickUpdate_fst_nextPuzzles] using h.queue_wf
  · intro q hq
    rw [show ({ s with gameState := (clickUpdate l s.gameState p).1 } :
        AppState).gameState.puzzle = s.gameState.puzzle from
      clickUpdate_fst_puzzle l s.gameState p] at hq
    exact h.cur_wf q hq
  · intro _
    refine ⟨p, ?_, ?_⟩
    · rw [show ({ s with gameState := (clickUpdate l s.gameState p).1 } :
          AppState).gameState.puzzle = s.gameState.puzzle from
        clickUpdate_fst_puzzle l s.gameState p]
      exact hp
    · show (clickUpdate l s.gameState p).1.userGuess.length = p.word_length
      rw [clickUpdate_fst_userGuess, List.length_map, List.length_map]
      exact hwf.1.symm
  · intro hst
    refine ⟨p, ?_, ?_⟩
    · rw [show ({ s with gameState := (clickUpdate l s.gameState p).1 } :
          AppState).gameState.puzzle = s.gameState.puzzle from
        clickUpdate_fst_puzzle l s.gameState p]
      exact hp
    · have hj := hwon.mp hst
      rw [hwf.2] at hj
      exact hj
  · intro hst
    refine ⟨p, ?_, ?_, ?_⟩
    · rw [show ({ s with gameState := (clickUpdate l s.gameState p).1 } :
          AppState).gameState.puzzle = s.gameState.puzzle from
        clickUpdate_fst_puzzle l s.gameState p]
      exact hp
    · have hj := (hlost.mp hst).1
      rw [hwf.2] at hj
      exact hj
    · show ({ s with gameState := (clickUpdate l s.gameState p).1 } :
          AppState).gameState.maxAttempts ≤ (clickUpdate l s.gameState p).1.attempts
      rw [show ({ s with gameState := (clickUpdate l s.gameState p).1 } :
          AppState).gameState.maxAttempts = s.gameState.maxAttempts from
        clickUpdate_fst_maxAttempts l s.gameState p]
      exact (hlost.mp hst).2

theorem startNewGame_cons (now : Nat) (s : AppState) (next : PuzzleData)
    (remaining : List PuzzleData)
    (hq : s.gameState.nextPuzzles = next :: remaining) :
    startNewGame now s =
      { s with
          gameState :=
            { s.gameState with
                status := GameStatus.PLAYING
                puzzle := some next
                nextPuzzles := remaining
                userGuess := List.replicate next.word_length none
                attempts := 0
                guessedLetters := []
                history := archiveCurrentPuzzle s.gameState now } } := by
  unfold startNewGame
  rw [hq]

theorem startNewGame_nil (now : Nat) (s : AppState)
    (hq : s.gameState.nextPuzzles = []) :
    startNewGame now s =
      { s with
          gameState :=
            { s.gameState with
                status := GameStatus.LOADING
                userGuess := []
                attempts := 0
                guessedLetters := []
                history := archiveCurrentPuzzle s.gameState now }
          loadPending := true } := by
  unfold startNewGame
  rw [hq]

theorem inv_startNewGame (now : Nat) (s : AppState) (h : Inv s) :
    Inv (startNewGame now s) := by
  rcases hq : s.gameState.nextPuzzles with _ | ⟨next, remaining⟩
  · rw [startNewGame_nil now s hq]
    refine
      { queue_le := h.queue_le
        inflight := h.inflight
        maxAtt := h.maxAtt
        att_le := Nat.zero_le _
        att_lt := fun hst => nomatch hst
        queue_wf := h.queue_wf
        cur_wf := h.cur_wf
        guess_len := ?_
        won_inv := fun hst => nomatch hst
        lost_inv := fun hst => nomatch hst }
    rintro (hst | hst | hst) <;> exact nomatch hst
  · rw [startNewGame_cons now s next remaining hq]
    have hql := h.queue_le
    have hqf := h.inflight
    rw [hq] at hql hqf
    have hnextwf : WFPuzzle next := h.queue_wf next (by rw [hq]; exact List.mem_cons_self _ _)
    refine
      { queue_le := ?_
        inflight := ?_
        maxAtt := h.maxAtt
        att_le := Nat.zero_le _
        att_lt := ?_
        queue_wf := ?_
        cur_wf := ?_
        guess_len := ?_
        won_inv := fun hst => nomatch hst
        lost_inv := fun hst => nomatch hst }
    · show remaining.length ≤ MAX_PREFETCH
      simp only [List.length_cons] at hql
      omega
    · intro hf
      show remaining.length + 1 ≤ MAX_PREFETCH
      have := hqf hf
      simp only [List.length_cons] at this
      omega
    · intro _
      show (0 : Nat) < s.gameState.maxAttempts
      rw [h.maxAtt]
      decide
    · intro q hql'
      exact h.queue_wf q (by rw [hq]; exact List.mem_cons_of_mem _ hql')
    · intro q hq'
      have : next = q := by
        have := hq'
        simpa using this
      rw [← this]
      exact hnextwf
    · intro _
      exact ⟨next, rfl, by simp⟩

theorem inv_startNewGameSuccess (p : PuzzleData) (s : AppState)
    (hwf : WFPuzzle p) (h : Inv s) : Inv (startNewGameSuccess p s) := by
  unfold startNewGameSuccess
  refine
    { queue_le := h.queue_le
      inflight := h.inflight
      maxAtt := h.maxAtt
      att_le := Nat.zero_le _
      att_lt := ?_
      queue_wf := h.queue_wf
      cur_wf := ?_
      guess_len := ?_
      won_inv := fun hst => nomatch hst
      lost_inv := fun hst => nomatch hst }
  · intro _
    show (0 : Nat) < s.gameState.maxAttempts
    rw [h.maxAtt]
    decide
  · intro q hq'
    have : p = q := by simpa using hq'
    rw [← this]
    exact hwf
  · intro _
    exact ⟨p, rfl, by simp⟩

theorem inv_startNewGameFailure (s : AppState) (h : Inv s) :
    Inv (startNewGameFailure s).1 :=
  { queue_le := h.queue_le
    inflight := h.inflight
    maxAtt := h.maxAtt
    att_le := h.att_le
    att_lt := fun hst => nomatch hst
    queue_wf := h.queue_wf
    cur_wf := h.cur_wf
    guess_len := fun hst => by rcases hst with hst | hst | hst <;> exact nomatch hst
    won_inv := fun hst => nomatch hst
    lost_inv := fun hst => nomatch hst }

theorem inv_prefetchNextRound (now : Nat) (s : AppState) (h : Inv s) :
    Inv (prefetchNextRound now s) := by
  unfold prefetchNextRound
  split
  · exact h
  case isFalse hguard =>
    have hlen : ¬ MAX_PREFETCH ≤ s.gameState.nextPuzzles.length := by
      intro hc
      exact hguard (by simp [hc])
    exact
      { queue_le := h.queue_le
        inflight := fun _ => by
          show s.gameState.nextPuzzles.length + 1 ≤ MAX_PREFETCH
          omega
        maxAtt := h.maxAtt
        att_le := h.att_le
        att_lt := h.att_lt
        queue_wf := h.queue_wf
        cur_wf := h.cur_wf
        guess_len := h.guess_len
        won_inv := h.won_inv
        lost_inv := h.lost_inv }

theorem inv_prefetchNextRoundSuccess (p : PuzzleData) (s : AppState)
    (hwf : WFPuzzle p) (hf : s.isFetchingNext = true) (h : Inv s) :
    Inv (prefetchNextRoundSuccess p s) := by
  have hroom := h.inflight hf
  unfold prefetchNextRoundSuccess
  split
  · refine
      { queue_le := ?_
        inflight := fun hc => nomatch hc
        maxAtt := h.maxAtt
        att_le := h.att_le
        att_lt := h.att_lt
        queue_wf := ?_
        cur_wf := h.cur_wf
        guess_len := h.guess_len
        won_inv := h.won_inv
        lost_inv := h.lost_inv }
    · show (s.gameState.nextPuzzles ++ [p]).length ≤ MAX_PREFETCH
      simp only [List.length_append, List.length_cons, List.length_nil]
      omega
    · intro q hq'
      show WFPuzzle q
      rcases List.mem_append.mp hq' with hm | hm
      · exact h.queue_wf q hm
      · have : q = p := by simpa using hm
        rw [this]
        exact hwf
  · exact
      { queue_le := h.queue_le
        inflight := fun hc => nomatch hc
        maxAtt := h.maxAtt
        att_le := h.att_le
        att_lt := h.att_lt
        queue_wf := h.queue_wf
        cur_wf := h.cur_wf
        guess_len := h.guess_len
        won_inv := h.won_inv
        lost_inv := h.lost_inv }

theorem inv_prefetchNextRoundFailure (now : Nat) (s : AppState) (h : Inv s) :
    Inv (prefetchNextRoundFailure now s) :=
  { queue_le := h.queue_le
    inflight := fun hc => nomatch hc
    maxAtt := h.maxAtt
    att_le := h.att_le
    att_lt := h.att_lt
    queue_wf := h.queue_wf
    cur_wf := h.cur_wf
    guess_len := h.guess_len
    won_inv := h.won_inv
    lost_inv := h.lost_inv }

theorem inv_expandPoolEffect (s : AppState) (h : Inv s) :
    Inv (expandPoolEffect s) := by
  unfold expandPoolEffect
  split
  · exact
      { queue_le := h.queue_le
        inflight := h.inflight
        maxAtt := h.maxAtt
        att_le := h.att_le
        att_lt := h.att_lt
        queue_wf := h.queue_wf
        cur_wf := h.cur_wf
        guess_len := h.guess_len
        won_inv := h.won_inv
        lost_inv := h.lost_inv }
  · exact h

theorem inv_initialState : Inv initialState :=
  { queue_le := by decide
    inflight := fun hc => nomatch hc
    maxAtt := rfl
    att_le := by decide
    att_lt := fun hst => nomatch hst
    queue_wf := fun p hp => nomatch hp
    cur_wf := fun p hp => nomatch hp
    guess_len := fun hst => by rcases hst with hst | hst | hst <;> exact nomatch hst
    won_inv := fun hst => nomatch hst
    lost_inv := fun hst => nomatch hst }

/-- The invariant is preserved by every scheduling step. -/
theorem inv_step {s s' : AppState} (hstep : Step s s') (h : Inv s) : Inv s' := by
  cases hstep with
  | click l s => exact inv_stepClick l s h
  | start now s => exact inv_startNewGame now s h
  | loadSuccess thought imageUrl rawTargetWord rawCaption style theme domain letterPool s hpend =>
    exact inv_startNewGameSuccess _ s
      (generateGameRoundPure_wf thought imageUrl rawTargetWord rawCaption
        style theme domain letterPool) h
  | loadFailure s hpend => exact inv_startNewGameFailure s h
  | fetchStart now s hst => exact inv_prefetchNextRound now s h
  | fetchSuccess thought imageUrl rawTargetWord rawCaption style theme domain letterPool s hf =>
    exact inv_prefetchNextRoundSuccess _ s
      (generateGameRoundPure_wf thought imageUrl rawTargetWord rawCaption
        style theme domain letterPool) hf h
  | fetchFailure now s hf => exact inv_prefetchNextRoundFailure now s h
  | poolCheck s => exact inv_expandPoolEffect s h

/-- Every reachable component state satisfies the inductive invariant. -/
theorem reachable_inv {s : AppState} (h : Reachable s) : Inv s := by
  induction h with
  | init => exact inv_initialState
  | step _ hstep ih => exact inv_step hstep ih

theorem handleLetterClick_no_alert (l : Char) (gs : GameState) (m : String) :
    Effect.alert m ∉ (handleLetterClick l gs).2 := by
  unfold handleLetterClick
  cases gs.puzzle with
  | none => simp
  | some p =>
    dsimp only
    by_cases h1 : gs.status ≠ GameStatus.PLAYING
    · rw [if_pos h1]
      simp
    rw [if_neg h1]
    by_cases h2 : gs.guessedLetters.contains l = true
    · rw [if_pos h2]
      simp
    rw [if_neg h2]
    by_cases h3 : (p.target_word_hidden.map Char.toUpper).isEmpty = true
    · rw [if_pos h3]
      simp
    rw [if_neg h3]
    unfold clickUpdate
    simp only [Prod.snd]
    intro hmem
    rcases List.mem_append.mp hmem with hm | hm
    · rcases List.mem_append.mp hm with hm' | hm'
      · split at hm' <;> simp at hm'
      · split at hm' <;> simp at hm'
    · split at hm <;> simp at hm

/-! ### Sample states used by the witnesses -/

/-- A minimal puzzle record around a given target word, with
`word_length` consistent as the generator guarantees. -/
def mkPuzzle (w : List Char) : PuzzleData :=
  { internal_thought_process := ""
    image_url := ""
    original_caption_hidden := ""
    target_word_hidden := w
    word_length := w.length
    art_style := ""
    theme := ""
    category := ""
    puzzle_data_for_user := { redacted_caption := "", letter_pool := [] } }

/-- A mid-round playing state on the word GARDEN. -/
def samplePlaying : GameState :=
  { status := GameStatus.PLAYING
    puzzle := some (mkPuzzle [ 'G', 'A', 'R', 'D', 'E', 'N'])
    nextPuzzles := []
    userGuess := List.replicate 6 none
    attempts := 0
    maxAttempts := 4
    guessedLetters := []
    score := { won := 0, lost := 0 }
    history := [] }

/-- A just-won component state with two prefetched puzzles queued. -/
def sampleWonApp : AppState :=
  { gameState :=
      { status := GameStatus.WON
        puzzle := some (mkPuzzle [ 'S', 'U', 'N'])
        nextPuzzles := [mkPuzzle [ 'M', 'O', 'O', 'N'], mkPuzzle [ 'S', 'T', 'A', 'R']]
        userGuess := [some 'S', some 'U', some 'N']
        attempts := 1
        maxAttempts := 4
        guessedLetters := [ 'S', 'U', 'N']
        score := { won := 1, lost := 0 }
        history := [] }
    isRetrying := false
    isPrefetching := false
    isFetchingNext := false
    hasExpandedPool := false
    prefetchCooldown := 0
    loadPending := false }

/-- A reachable state: pressing start on the empty queue and letting the
foreground generator resolve. -/
def loadedApp : AppState :=
  startNewGameSuccess
    (generateGameRoundPure "t" "u" "LANTERN" "A lantern glows." "s" "th" "d" [])
    (startNewGame 0 initialState)

theorem loadedApp_reachable : Reachable loadedApp :=
  Reachable.step (Reachable.step Reachable.init (Step.start 0 initialState))
    (Step.loadSuccess "t" "u" "LANTERN" "A lantern glows." "s" "th" "d" []
      (startNewGame 0 initialState) rfl)

/-! ### Claim theorems -/

/-- C1: for every playing round with an active puzzle whose target word is
non-empty, clicking a letter not yet guessed appends it to the guessed
set; the attempt count is unchanged when the (uppercased) target word
contains the letter and incremented by exactly 1 otherwise; the new
`userGuess` maps each character of the target word to itself when it is
in the updated guessed set and to a blank otherwise; and the resulting
status is `WON` iff the joined new guess equals the target word, `LOST`
iff it does not and the new attempt count has reached `maxAttempts`, and
`PLAYING` otherwise. -/
theorem clickLetter_spec (letter : Char) (gs : GameState) (p : PuzzleData)
    (hp : gs.puzzle = some p)
    (hs : gs.status = GameStatus.PLAYING)
    (ht : p.target_word_hidden.map Char.toUpper ≠ [])
    (hg : gs.guessedLetters.contains letter = false) :
    (handleLetterClick letter gs).1.guessedLetters =
      gs.guessedLetters ++ [letter] ∧
    (handleLetterClick letter gs).1.attempts =
      (if (p.target_word_hidden.map Char.toUpper).contains letter then gs.attempts
       else gs.attempts + 1) ∧
    (handleLetterClick letter gs).1.userGuess =
      ((p.target_word_hidden.map Char.toUpper).map fun c =>
        if (gs.guessedLetters ++ [letter]).contains c then some c else none) ∧
    ((handleLetterClick letter gs).1.status = GameStatus.WON ↔
      joinGuess (handleLetterClick letter gs).1.userGuess =
        p.target_word_hidden.map Char.toUpper) ∧
    ((handleLetterClick letter gs).1.status = GameStatus.LOST ↔
      (joinGuess (handleLetterClick letter gs).1.userGuess ≠
          p.target_word_hidden.map Char.toUpper ∧
        gs.maxAttempts ≤ (handleLetterClick letter gs).1.attempts)) ∧
    ((handleLetterClick letter gs).1.status = GameStatus.PLAYING ↔
      (joinGuess (handleLetterClick letter gs).1.userGuess ≠
          p.target_word_hidden.map Char.toUpper ∧
        (handleLetterClick letter gs).1.attempts < gs.maxAttempts)) := by
  have ht' : (p.target_word_hidden.map Char.toUpper).isEmpty = false := by
    simpa [List.isEmpty_iff] using ht
  rw [handleLetterClick_act letter gs p hp hs hg ht']
  obtain ⟨hwon, hlost, hplay⟩ := clickUpdate_status_iff letter gs p
  exact
    ⟨clickUpdate_fst_guessedLetters letter gs p,
     clickUpdate_fst_attempts letter gs p,
     clickUpdate_fst_userGuess letter gs p,
     hwon, hlost, hplay⟩

theorem clickLetter_spec_witness :
    (handleLetterClick 'G' samplePlaying).1.guessedLetters =
      samplePlaying.guessedLetters ++ [ 'G'] ∧
    (handleLetterClick 'G' samplePlaying).1.status = GameStatus.PLAYING :=
  ⟨(clickLetter_spec 'G' samplePlaying (mkPuzzle [ 'G', 'A', 'R', 'D', 'E', 'N'])
      rfl rfl (by decide) rfl).1,
   ((clickLetter_spec 'G' samplePlaying (mkPuzzle [ 'G', 'A', 'R', 'D', 'E', 'N'])
      rfl rfl (by decide) rfl).2.2.2.2.2).mpr (by decide)⟩

/-- C6: clicking a letter that is already in the guessed set is a no-op:
the game state is returned unchanged, no signal is emitted, and
consequently clicking the same letter twice equals clicking it once. -/
theorem clickLetter_idempotent (letter : Char) (gs : GameState)
    (h : letter ∈ gs.guessedLetters) :
    handleLetterClick letter gs = (gs, []) ∧
    handleLetterClick letter (handleLetterClick letter gs).1 =
      handleLetterClick letter gs := by
  have hc : gs.guessedLetters.contains letter = true := by
    simpa using h
  have h1 := handleLetterClick_noop_guessed letter gs hc
  refine ⟨h1, ?_⟩
  rw [h1]
  exact h1

theorem clickLetter_idempotent_witness :
    handleLetterClick 'S'
      { sampleWonApp.gameState with status := GameStatus.PLAYING } =
      ({ sampleWonApp.gameState with status := GameStatus.PLAYING }, []) :=
  (clickLetter_idempotent 'S'
    { sampleWonApp.gameState with status := GameStatus.PLAYING }
    (by decide)).1

/-- C10: clicking any letter while the status is not `PLAYING`, or while
no puzzle is active, leaves the game state unchanged and emits no
correct/incorrect/win/lose signal: the call is safely ignored. -/
theorem clickLetter_ignored_outside_play (letter : Char) (gs : GameState)
    (h : gs.status ≠ GameStatus.PLAYING ∨ gs.puzzle = none) :
    handleLetterClick letter gs = (gs, []) := by
  rcases h with h | h
  · exact handleLetterClick_noop_notPlaying letter gs h
  · exact handleLetterClick_noop_nopuzzle letter gs h

theorem clickLetter_ignored_outside_play_witness :
    handleLetterClick 'Z' sampleWonApp.gameState = (sampleWonApp.gameState, []) :=
  clickLetter_ignored_outside_play 'Z' sampleWonApp.gameState (Or.inl (by decide))

/-- C2: with a non-empty prefetch queue, a start-game intent is handled
synchronously: the former queue head becomes the current puzzle, exactly
that head is removed from the queue, `userGuess` becomes an all-blank
sequence of the new puzzle's `word_length`, `attempts` and
`guessedLetters` are reset, and, when the prior status was `WON` or
`LOST`, the just-finished puzzle is prepended to the history tagged with
its outcome. -/
theorem startNewGame_fastPath (now : Nat) (s : AppState) (next : PuzzleData)
    (rest : List PuzzleData)
    (hq : s.gameState.nextPuzzles = next :: rest) :
    (startNewGame now s).gameState.status = GameStatus.PLAYING ∧
    (startNewGame now s).gameState.puzzle = some next ∧
    (startNewGame now s).gameState.nextPuzzles = rest ∧
    (startNewGame now s).gameState.userGuess =
      List.replicate next.word_length none ∧
    (startNewGame now s).gameState.attempts = 0 ∧
    (startNewGame now s).gameState.guessedLetters = [] ∧
    (∀ p0, (s.gameState.status = GameStatus.WON ∨
        s.gameState.status = GameStatus.LOST) →
      s.gameState.puzzle = some p0 →
      (startNewGame now s).gameState.history =
        { puzzle := p0
          outcome :=
            if s.gameState.status = GameStatus.WON then Outcome.WON
            else Outcome.LOST
          timestamp := now } :: s.gameState.history.take (MAX_HISTORY - 1)) := by
  rw [startNewGame_cons now s next rest hq]
  refine ⟨rfl, rfl, rfl, rfl, rfl, rfl, ?_⟩
  intro p0 hwl hp
  show archiveCurrentPuzzle s.gameState now = _
  unfold archiveCurrentPuzzle
  rw [hp]
  dsimp only
  rw [if_neg (by rcases hwl with hw | hw <;> simp [hw])]
  show List.take MAX_HISTORY _ = _
  rw [show MAX_HISTORY = (MAX_HISTORY - 1) + 1 from rfl, List.take_succ_cons]
  norm_num

theorem startNewGame_fastPath_witness :
    (startNewGame 7 sampleWonApp).gameState.puzzle =
      some (mkPuzzle [ 'M', 'O', 'O', 'N']) ∧
    (startNewGame 7 sampleWonApp).gameState.nextPuzzles =
      [mkPuzzle [ 'S', 'T', 'A', 'R']] ∧
    (startNewGame 7 sampleWonApp).gameState.history =
      [{ puzzle := mkPuzzle [ 'S', 'U', 'N'], outcome := Outcome.WON,
         timestamp := 7 }] :=
  ⟨(startNewGame_fastPath 7 sampleWonApp _ _ rfl).2.1,
   (startNewGame_fastPath 7 sampleWonApp _ _ rfl).2.2.1,
   by
    simpa using
      (startNewGame_fastPath 7 sampleWonApp _ _ rfl).2.2.2.2.2.2
        (mkPuzzle [ 'S', 'U', 'N']) (Or.inl rfl) rfl⟩

/-- C7: when a start-game intent falls to the synchronous fallback path
(empty prefetch queue) and the generator call then fails, the status
returns to `IDLE` and an alert is the surfaced effect; no partial round
state is retained (the previous puzzle and queue are untouched and the
per-round fields are at their blank reset values); and the letter-click
handler, the only other effect-emitting operation, never emits an alert,
so this is the only path surfacing a hard failure to the user. -/
theorem startNewGame_failure_spec (now : Nat) (s : AppState)
    (hq : s.gameState.nextPuzzles = []) :
    (startNewGameFailure (startNewGame now s)).1.gameState.status =
      GameStatus.IDLE ∧
    (startNewGameFailure (startNewGame now s)).2 =
      [Effect.alert "AI signal interrupted. Please try again."] ∧
    (startNewGameFailure (startNewGame now s)).1.gameState.puzzle =
      s.gameState.puzzle ∧
    (startNewGameFailure (startNewGame now s)).1.gameState.nextPuzzles =
      s.gameState.nextPuzzles ∧
    (startNewGameFailure (startNewGame now s)).1.gameState.userGuess = [] ∧
    (startNewGameFailure (startNewGame now s)).1.gameState.attempts = 0 ∧
    (startNewGameFailure (startNewGame now s)).1.gameState.guessedLetters = [] ∧
    (startNewGameFailure (startNewGame now s)).1.gameState.score =
      s.gameState.score ∧
    (startNewGameFailure (startNewGame now s)).1.loadPending = false ∧
    (∀ (l : Char) (gs : GameState) (m : String),
      Effect.alert m ∉ (handleLetterClick l gs).2) := by
  rw [startNewGame_nil now s hq]
  exact
    ⟨rfl, rfl, rfl, rfl, rfl, rfl, rfl, rfl, rfl,
     handleLetterClick_no_alert⟩

theorem startNewGame_failure_spec_witness :
    (startNewGameFailure (startNewGame 3 initialState)).1.gameState.status =
      GameStatus.IDLE ∧
    (startNewGameFailure (startNewGame 3 initialState)).2 =
      [Effect.alert "AI signal interrupted. Please try again."] :=
  ⟨(startNewGame_failure_spec 3 initialState rfl).1,
   (startNewGame_failure_spec 3 initialState rfl).2.1⟩

/-- C3: in every reachable component state, under any interleaving of
user intents, foreground loads and background fetches, the prefetch queue
never holds more than `MAX_PREFETCH` (2) puzzles. -/
theorem queue_never_exceeds_MAX_PREFETCH (s : AppState) (h : Reachable s) :
    s.gameState.nextPuzzles.length ≤ MAX_PREFETCH :=
  (reachable_inv h).queue_le

theorem queue_never_exceeds_MAX_PREFETCH_witness :
    loadedApp.gameState.nextPuzzles.length ≤ MAX_PREFETCH :=
  queue_never_exceeds_MAX_PREFETCH loadedApp loadedApp_reachable

/-- C4: in every reachable component state, `attempts ≤ maxAttempts`,
and whenever the status is `PLAYING`, `WON` or `LOST` there is an active
puzzle whose `word_length` equals the length of `userGuess`. -/
theorem attempts_bounded_and_guess_sized (s : AppState) (h : Reachable s) :
    s.gameState.attempts ≤ s.gameState.maxAttempts ∧
    ((s.gameState.status = GameStatus.PLAYING ∨
        s.gameState.status = GameStatus.WON ∨
        s.gameState.status = GameStatus.LOST) →
      ∃ p, s.gameState.puzzle = some p ∧
        s.gameState.userGuess.length = p.word_length) :=
  ⟨(reachable_inv h).att_le, (reachable_inv h).guess_len⟩

theorem attempts_bounded_and_guess_sized_witness :
    loadedApp.gameState.attempts ≤ loadedApp.gameState.maxAttempts ∧
    ∃ p, loadedApp.gameState.puzzle = some p ∧
      loadedApp.gameState.userGuess.length = p.word_length :=
  ⟨(attempts_bounded_and_guess_sized loadedApp loadedApp_reachable).1,
   (attempts_bounded_and_guess_sized loadedApp loadedApp_reachable).2
     (Or.inl (by decide))⟩

/-- C5: in every reachable component state, the status is `WON` only if
the joined `userGuess` equals the target word of the active puzzle
exactly, and `LOST` only if the round is not won and `attempts` has
reached `maxAttempts`. -/
theorem won_lost_only_if (s : AppState) (h : Reachable s) :
    (s.gameState.status = GameStatus.WON →
      ∃ p, s.gameState.puzzle = some p ∧
        joinGuess s.gameState.userGuess = p.target_word_hidden) ∧
    (s.gameState.status = GameStatus.LOST →
      ∃ p, s.gameState.puzzle = some p ∧
        joinGuess s.gameState.userGuess ≠ p.target_word_hidden ∧
        s.gameState.maxAttempts ≤ s.gameState.attempts) :=
  ⟨(reachable_inv h).won_inv, (reachable_inv h).lost_inv⟩

theorem won_lost_only_if_witness :
    (loadedApp.gameState.status = GameStatus.WON →
      ∃ p, loadedApp.gameState.puzzle = some p ∧
        joinGuess loadedApp.gameState.userGuess = p.target_word_hidden) ∧
    (loadedApp.gameState.status = GameStatus.LOST →
      ∃ p, loadedApp.gameState.puzzle = some p ∧
        joinGuess loadedApp.gameState.userGuess ≠ p.target_word_hidden ∧
        loadedApp.gameState.maxAttempts ≤ loadedApp.gameState.attempts) :=
  won_lost_only_if loadedApp loadedApp_reachable

/-- C8: a failed background prefetch enqueues nothing (the game state is
untouched), starts a cooldown ending exactly `PREFETCH_COOLDOWN_MS`
(5000 ms) after the failure time, raises the `isRetrying` indicator
visible to the presentation layer, and during the cooldown every attempt
to start a new fetch is a no-op.  The failure is absorbed (the
continuation is total and effect-free), never rethrown to the caller. -/
theorem prefetch_failure_cooldown (now : Nat) (s : AppState) :
    (prefetchNextRoundFailure now s).gameState = s.gameState ∧
    (prefetchNextRoundFailure now s).prefetchCooldown =
      now + PREFETCH_COOLDOWN_MS ∧
    (prefetchNextRoundFailure now s).isRetrying = true ∧
    (∀ t, t < now + PREFETCH_COOLDOWN_MS →
      prefetchNextRound t (prefetchNextRoundFailure now s) =
        prefetchNextRoundFailure now s) := by
  refine ⟨rfl, rfl, rfl, ?_⟩
  intro t ht
  have hcond : ((prefetchNextRoundFailure now s).isFetchingNext ||
      decide (MAX_PREFETCH ≤
        (prefetchNextRoundFailure now s).gameState.nextPuzzles.length) ||
      decide (t < (prefetchNextRoundFailure now s).prefetchCooldown)) = true := by
    have hcool : (prefetchNextRoundFailure now s).prefetchCooldown =
        now + PREFETCH_COOLDOWN_MS := rfl
    rw [hcool]
    simp [ht]
  unfold prefetchNextRound
  rw [if_pos hcond]

theorem prefetch_failure_cooldown_witness :
    prefetchNextRound 3000 (prefetchNextRoundFailure 1000 initialState) =
      prefetchNextRoundFailure 1000 initialState :=
  (prefetch_failure_cooldown 1000 initialState).2.2.2 3000 (by decide)

/-- A component state in the middle of a background fetch, with an empty
queue. -/
def sampleFetchingApp : AppState :=
  { sampleWonApp with
      isFetchingNext := true
      isPrefetching := true
      gameState := { sampleWonApp.gameState with nextPuzzles := [] } }

/-- C9: a generated puzzle whose target word is shorter than 3 letters is
never appended to the prefetch queue: the success continuation only drops
the in-flight flags, leaving the whole remaining state (queue, cooldown,
retry indicator) untouched and surfacing no error; and afterwards a
scheduled fetch attempt whose time is past the cooldown proceeds normally
whenever the queue has room. -/
theorem prefetch_short_word_discarded (p : PuzzleData) (s : AppState)
    (hshort : p.target_word_hidden.length < 3) :
    prefetchNextRoundSuccess p s =
      { s with isFetchingNext := false, isPrefetching := false } ∧
    (∀ t, s.prefetchCooldown ≤ t →
      s.gameState.nextPuzzles.length < MAX_PREFETCH →
      prefetchNextRound t (prefetchNextRoundSuccess p s) =
        { s with isFetchingNext := true, isPrefetching := true,
                 isRetrying := false }) := by
  have h1 : prefetchNextRoundSuccess p s =
      { s with isFetchingNext := false, isPrefetching := false } := by
    unfold prefetchNextRoundSuccess
    rw [if_neg (by omega)]
  refine ⟨h1, ?_⟩
  intro t h2 h3
  rw [h1]
  unfold prefetchNextRound
  rw [if_neg (by
    show ¬ ((false ||
      decide (MAX_PREFETCH ≤ s.gameState.nextPuzzles.length) ||
      decide (t < s.prefetchCooldown)) = true)
    rw [decide_eq_false (by omega : ¬ MAX_PREFETCH ≤ s.gameState.nextPuzzles.length)]
    rw [decide_eq_false (by omega : ¬ t < s.prefetchCooldown)]
    simp)]

theorem prefetch_short_word_discarded_witness :
    prefetchNextRoundSuccess (mkPuzzle [ 'A', 'T']) sampleFetchingApp =
      { sampleFetchingApp with isFetchingNext := false, isPrefetching := false } :=
  (prefetch_short_word_discarded (mkPuzzle [ 'A', 'T']) sampleFetchingApp
    (by decide)).1

end Lexilens
